import Mathlib

/-!
Verification development for the `safe_unzip` hardened archive-extraction
library. The definitions below are a shallow embedding of the Rust sources
(`src/policy.rs`, `src/extractor.rs`, `src/driver.rs`,
`src/adapter/tar_adapter.rs`); machine integers (`u64`) are modelled as `Nat`
with explicit reduction modulo `2 ^ 64` wherever the Rust code performs
unchecked `u64` addition. External collaborators (the `path_jail` crate's
`Jail::join`, the `zip`/`tar` codecs' byte streams, the filesystem) are
modelled as explicit parameters: a jail function, a stream length, and a
filesystem oracle plus a trace of filesystem actions.
-/

namespace SafeUnzip

/-- One u64 wrapping addition, the semantics of Rust's `+` on `u64` with
overflow checks disabled. -/
def wrapAdd (a b : Nat) : Nat := (a + b) % 2 ^ 64

/-- Rust `std::path::Component` restricted to Unix paths (no prefixes). -/
inductive RComponent where
  | rootDir
  | curDir
  | parentDir
  | normal (s : String)
deriving DecidableEq, Repr

def RComponent.isNormal : RComponent → Bool
  | .normal _ => true
  | _ => false

/-- Split a character list at every occurrence of `sep`, keeping empty
pieces, matching Rust's `str::split`. -/
def splitOnCh (sep : Char) : List Char → List (List Char)
  | [] => [[]]
  | c :: cs =>
    let r := splitOnCh sep cs
    if c = sep then [] :: r
    else
      match r with
      | h :: t => (c :: h) :: t
      | [] => [[c]]

def partsOf (name : String) : List String :=
  (splitOnCh '/' name.toList).map (fun l => String.mk l)

def componentOf (s : String) : RComponent :=
  if s = ".." then .parentDir else .normal s

/-- Rust `Path::new(name).components()` on Unix: empty segments dropped,
`.` segments normalized away except a leading one, a leading `/` becomes
`RootDir`, `..` becomes `ParentDir`. -/
def pathComponents (name : String) : List RComponent :=
  let nonEmpty := (partsOf name).filter (fun s => s ≠ "")
  let body := (nonEmpty.filter (fun s => s ≠ ".")).map componentOf
  match name.toList with
  | '/' :: _ => .rootDir :: body
  | _ => if nonEmpty.headD "" = "." then .curDir :: body else body

/-- Byte count of the UTF-8 encoding of one scalar value. -/
def charUtf8Size (c : Char) : Nat :=
  if c.toNat < 128 then 1
  else if c.toNat < 2048 then 2
  else if c.toNat < 65536 then 3
  else 4

/-- Rust `str::len`: length in bytes of the UTF-8 encoding. -/
def utf8Len (s : String) : Nat :=
  s.toList.foldl (fun n c => n + charUtf8Size c) 0

/-- Rust `char::is_control`: the Unicode Cc category,
`U+0000..U+001F` and `U+007F..U+009F`. -/
def rustIsControl (c : Char) : Bool :=
  c.toNat < 32 || (127 ≤ c.toNat && c.toNat ≤ 159)

def asciiUpperChar (c : Char) : Char :=
  if 'a' ≤ c ∧ c ≤ 'z' then Char.ofNat (c.toNat - 32) else c

/-- `s.to_ascii_uppercase().split('.').next().unwrap_or(..)`: the upper-cased
portion of a path component before its first dot. -/
def fileStem (s : String) : String :=
  let up := s.toList.map asciiUpperChar
  String.mk ((splitOnCh '.' up).headD up)

def reservedNames : List String :=
  ["CON", "PRN", "AUX", "NUL", "COM1", "COM2", "COM3", "COM4", "COM5",
   "COM6", "COM7", "COM8", "COM9", "LPT1", "LPT2", "LPT3", "LPT4", "LPT5",
   "LPT6", "LPT7", "LPT8", "LPT9"]

def isReservedComponent : RComponent → Bool
  | .normal s => reservedNames.contains (fileStem s)
  | _ => false

/-- `Extractor::validate_filename` / `PathPolicy::validate_filename`
(identical bodies in extractor.rs and policy.rs): syntactic filename
validation, returning the rejection reason on failure. -/
def validate_filename (name : String) : Except String Unit :=
  if name.toList.isEmpty then .error "empty filename"
  else if name.toList.any rustIsControl then .error "contains control characters"
  else if name.toList.contains '\\' then .error "contains backslash"
  else if utf8Len name > 1024 then .error "path too long (>1024 bytes)"
  else if (partsOf name).any (fun component => utf8Len component > 255) then
    .error "path component too long (>255 bytes)"
  else if (pathComponents name).any isReservedComponent then
    .error "Windows reserved name"
  else .ok ()

/-- Modelled from the spec: `limits.rs` is not under `src/`; the four limit
fields follow §3 of the specification and their uses in policy.rs,
driver.rs and extractor.rs (`max_total_bytes`/`max_single_file` are `u64`,
`max_file_count`/`max_path_depth` are `usize`). -/
structure Limits where
  max_total_bytes : Nat
  max_single_file : Nat
  max_file_count : Nat
  max_path_depth : Nat
deriving DecidableEq, Repr

/-- Modelled from the spec: `entry.rs` is not under `src/`; the entry kind
variants follow §3 of the specification and the pattern matches in
policy.rs and driver.rs. -/
inductive EntryKind where
  | file
  | directory
  | symlink (target : String)
deriving DecidableEq, Repr

/-- Modelled from the spec: `entry.rs` is not under `src/`; the metadata
fields follow §3 of the specification and the field accesses in policy.rs
and driver.rs. -/
structure EntryInfo where
  name : String
  size : Nat
  kind : EntryKind
  mode : Option Nat
deriving DecidableEq, Repr

/-- `ExtractionState` from policy.rs: mutable per-extraction counters. -/
structure ExtractionState where
  files_extracted : Nat
  dirs_created : Nat
  bytes_written : Nat
  entries_skipped : Nat
deriving DecidableEq, Repr

def ExtractionState.init : ExtractionState := ⟨0, 0, 0, 0⟩

/-- The error taxonomy from error.rs, restricted to the variants the
embedded code paths construct. -/
inductive Error where
  | PathEscape (entry detail : String)
  | SymlinkNotAllowed (entry target : String)
  | TotalSizeExceeded (limit would_be : Nat)
  | FileCountExceeded (limit attempted : Nat)
  | FileTooLarge (entry : String) (limit size : Nat)
  | SizeMismatch (entry : String) (declared actual : Nat)
  | PathTooDeep (entry : String) (depth limit : Nat)
  | AlreadyExists (entry : String)
  | InvalidFilename (entry reason : String)
deriving DecidableEq, Repr

/-- The `path_jail::Jail::join` operation is an external crate; it is
modelled as a function returning either the joined-and-checked path or an
error detail string. -/
def JailFn : Type := String → Except String String

/-- `PathPolicy::check` from policy.rs: filename validation followed by the
jail join, whose successful value is discarded. -/
def PathPolicy.check (jail : JailFn) (entry : EntryInfo) : Except Error Unit :=
  match validate_filename entry.name with
  | .error reason => .error (.InvalidFilename entry.name reason)
  | .ok _ =>
    match jail entry.name with
    | .error d => .error (.PathEscape entry.name d)
    | .ok _ => .ok ()

/-- `SizePolicy::check` from policy.rs. The sum
`state.bytes_written + entry.size` is a Rust `u64` addition and therefore
wraps modulo `2 ^ 64`. -/
def SizePolicy.check (max_single_file max_total : Nat) (entry : EntryInfo)
    (state : ExtractionState) : Except Error Unit :=
  if entry.size > max_single_file then
    .error (.FileTooLarge entry.name max_single_file entry.size)
  else if wrapAdd state.bytes_written entry.size > max_total then
    .error (.TotalSizeExceeded max_total (wrapAdd state.bytes_written entry.size))
  else .ok ()

/-- `CountPolicy::check` from policy.rs: pre-increment inclusive check. -/
def CountPolicy.check (max_files : Nat) (state : ExtractionState) :
    Except Error Unit :=
  if state.files_extracted ≥ max_files then
    .error (.FileCountExceeded max_files (state.files_extracted + 1))
  else .ok ()

/-- `DepthPolicy::check` from policy.rs: counts ALL path components of the
entry name (`Path::new(..).components().count()`), including `..`, a
leading `.` and a root prefix. -/
def DepthPolicy.check (max_depth : Nat) (entry : EntryInfo) :
    Except Error Unit :=
  let depth := (pathComponents entry.name).length
  if depth > max_depth then
    .error (.PathTooDeep entry.name depth max_depth)
  else .ok ()

/-- `SymlinkBehavior` from policy.rs. -/
inductive SymlinkBehavior where
  | skip
  | error
deriving DecidableEq, Repr

/-- `SymlinkPolicy::check` from policy.rs: errors (with the entry's target)
only when the behavior is `Error`. -/
def SymlinkPolicy.check (behavior : SymlinkBehavior) (entry : EntryInfo) :
    Except Error Unit :=
  match entry.kind with
  | .symlink target =>
    match behavior with
    | .skip => .ok ()
    | .error => .error (.SymlinkNotAllowed entry.name target)
  | _ => .ok ()

/-- The depth count used inline in `Extractor::extract` and
`Extractor::validate_all` (extractor.rs): only `Component::Normal`
components are counted. -/
def normalDepth (name : String) : Nat :=
  ((pathComponents name).filter RComponent.isNormal).length

/-- Rust `PathBuf::join` on Unix: an absolute right side replaces the left,
otherwise concatenation with a separator inserted when needed. -/
def pathJoin (root name : String) : String :=
  match name.toList with
  | '/' :: _ => name
  | _ =>
    if root = "" then name
    else
      match root.toList.getLast? with
      | some '/' => root ++ name
      | _ => root ++ "/" ++ name

def joinWithSlash : List String → String
  | [] => ""
  | [s] => s
  | s :: rest => s ++ "/" ++ joinWithSlash rest

/-- Rust `Path::parent` as used on the joined write paths: the path with its
last `/`-separated segment removed. -/
def parentPath (p : String) : String :=
  joinWithSlash ((partsOf p).dropLast)

/-- The filesystem operations the extraction code performs, recorded as a
trace; writes are summarized by their byte count. -/
inductive FsAction where
  | createDirAll (path : String)
  | createNewFile (path : String)
  | truncCreate (path : String)
  | removeFile (path : String)
  | writeBytes (path : String) (count : Nat)
  | setPermissions (path : String) (mode : Nat)
deriving DecidableEq, Repr

def FsAction.path : FsAction → String
  | .createDirAll p => p
  | .createNewFile p => p
  | .truncCreate p => p
  | .removeFile p => p
  | .writeBytes p _ => p
  | .setPermissions p _ => p

/-- Answers the filesystem queries the code makes: whether an exclusive
create would find an existing file, and whether `symlink_metadata` reports a
symlink at a path. -/
structure FsOracle where
  fileIsAt : String → Bool
  symlinkAt : String → Bool

/-- Outcome of processing one entry: the successor state or an error, plus
the filesystem actions performed up to that point of the entry. -/
inductive StepOut (σ : Type) where
  | ok (s : σ) (acts : List FsAction)
  | fail (e : Error) (acts : List FsAction)
deriving DecidableEq, Repr

/-- `OverwritePolicy` from extractor.rs. -/
inductive OverwritePolicy where
  | error
  | skip
  | overwrite
deriving DecidableEq, Repr

/-- The `SymlinkPolicy` enum from extractor.rs (named apart from the
policy.rs `SymlinkPolicy` struct). -/
inductive ExtSymlinkPolicy where
  | skip
  | error
deriving DecidableEq, Repr

/-- `ExtractionMode` from extractor.rs. -/
inductive ExtractionMode where
  | streaming
  | validateFirst
deriving DecidableEq, Repr

/-- `Report` from extractor.rs. -/
structure Report where
  files_extracted : Nat
  dirs_created : Nat
  bytes_written : Nat
  entries_skipped : Nat
deriving DecidableEq, Repr

def Report.init : Report := ⟨0, 0, 0, 0⟩

/-- `EntryInfo` from extractor.rs (the view handed to filter callbacks). -/
structure ExtEntryInfo where
  name : String
  size : Nat
  compressed_size : Nat
  is_dir : Bool
  is_symlink : Bool
deriving DecidableEq, Repr

/-- One member of a ZIP archive as the `zip` crate presents it to
extractor.rs: central-directory metadata plus the decompressed content
stream, summarized by its length `actual` (the declared `size` may lie
about it in either direction). -/
structure ZipEntry where
  name : String
  size : Nat
  compressed_size : Nat
  is_dir : Bool
  is_symlink : Bool
  unix_mode : Option Nat
  actual : Nat
deriving DecidableEq, Repr

/-- The configuration fields of `Extractor` (extractor.rs); the progress
callback is omitted (pure side effect). -/
structure ExtractorCfg where
  root : String
  jail : JailFn
  limits : Limits
  overwrite : OverwritePolicy
  symlinks : ExtSymlinkPolicy
  mode : ExtractionMode
  filter : Option (ExtEntryInfo → Bool)

/-- Loop state of `Extractor::extract`: the report under construction and
the separate `total_bytes_written` accumulator. -/
structure ExtLoopState where
  report : Report
  total_bytes_written : Nat
deriving DecidableEq, Repr

def ExtLoopState.init : ExtLoopState := ⟨Report.init, 0⟩

/-- Lines 515-597 of extractor.rs: the `LimitReader`-bounded copy into the
opened file, the post-copy limit attribution, the one-byte lie probe, the
counter updates and the permission masking. `written` is what
`io::copy` moves through the `LimitReader`, i.e. the smaller of the stream
length and the hard limit; the limiter's `hit_limit` flag ends up set
exactly when the stream reached the hard limit. -/
def writeFilePart (cfg : ExtractorCfg) (st : ExtLoopState) (entry : ZipEntry)
    (safe_path : String) (acts : List FsAction) : StepOut ExtLoopState :=
  let limit_single := min cfg.limits.max_single_file entry.size
  let remaining_global := cfg.limits.max_total_bytes - st.total_bytes_written
  let hard_limit := min limit_single remaining_global
  let written := min entry.actual hard_limit
  let hit_limit := hard_limit ≤ entry.actual
  let acts := acts ++ [FsAction.writeBytes safe_path written]
  if hit_limit ∧ written ≥ cfg.limits.max_single_file ∧
      entry.size > cfg.limits.max_single_file then
    .fail (.FileTooLarge entry.name cfg.limits.max_single_file (wrapAdd written 1)) acts
  else if hit_limit ∧ remaining_global ≤ written ∧ written < entry.size then
    .fail (.TotalSizeExceeded cfg.limits.max_total_bytes
      (wrapAdd (wrapAdd st.total_bytes_written written) 1)) acts
  else if written = entry.size ∧ written < entry.actual then
    .fail (.SizeMismatch entry.name entry.size (wrapAdd entry.size 1)) acts
  else
    let acts := acts ++ (match entry.unix_mode with
      | some m => [FsAction.setPermissions safe_path (m &&& 0o777)]
      | none => [])
    .ok { report := { st.report with
            bytes_written := wrapAdd st.report.bytes_written written,
            files_extracted := st.report.files_extracted + 1 },
          total_bytes_written := wrapAdd st.total_bytes_written written } acts

/-- One iteration of the `Extractor::extract` loop (extractor.rs lines
350-598): filename validation, jail join (result discarded), symlink
policy, depth check on Normal components, user filter, count check,
declared-size checks, then materialization. -/
def extractStep (cfg : ExtractorCfg) (fs : FsOracle) (st : ExtLoopState)
    (entry : ZipEntry) : StepOut ExtLoopState :=
  let name := entry.name
  match validate_filename name with
  | .error reason => .fail (.InvalidFilename name reason) []
  | .ok _ =>
  match cfg.jail name with
  | .error d => .fail (.PathEscape name d) []
  | .ok _ =>
  let safe_path := pathJoin cfg.root name
  if entry.is_symlink then
    match cfg.symlinks with
    | .error => .fail (.SymlinkNotAllowed name "") []
    | .skip =>
      .ok { st with report :=
        { st.report with entries_skipped := st.report.entries_skipped + 1 } } []
  else
    let depth := normalDepth name
    if depth > cfg.limits.max_path_depth then
      .fail (.PathTooDeep name depth cfg.limits.max_path_depth) []
    else
      let info : ExtEntryInfo :=
        { name := name, size := entry.size, compressed_size := entry.compressed_size,
          is_dir := entry.is_dir, is_symlink := entry.is_symlink }
      let filteredOut := match cfg.filter with
        | some f => !(f info)
        | none => false
      if filteredOut then
        .ok { st with report :=
          { st.report with entries_skipped := st.report.entries_skipped + 1 } } []
      else if st.report.files_extracted ≥ cfg.limits.max_file_count then
        .fail (.FileCountExceeded cfg.limits.max_file_count
          (st.report.files_extracted + 1)) []
      else if entry.is_dir = false ∧ entry.size > cfg.limits.max_single_file then
        .fail (.FileTooLarge name cfg.limits.max_single_file entry.size) []
      else if wrapAdd st.total_bytes_written entry.size > cfg.limits.max_total_bytes then
        .fail (.TotalSizeExceeded cfg.limits.max_total_bytes
          (wrapAdd st.total_bytes_written entry.size)) []
      else if entry.is_dir then
        .ok { st with report :=
          { st.report with dirs_created := st.report.dirs_created + 1 } }
          [FsAction.createDirAll safe_path]
      else
        let acts0 := [FsAction.createDirAll (parentPath safe_path)]
        match cfg.overwrite with
        | .error =>
          if fs.fileIsAt safe_path then .fail (.AlreadyExists safe_path) acts0
          else writeFilePart cfg st entry safe_path
            (acts0 ++ [FsAction.createNewFile safe_path])
        | .skip =>
          if fs.fileIsAt safe_path then
            .ok { st with report :=
              { st.report with entries_skipped := st.report.entries_skipped + 1 } } acts0
          else writeFilePart cfg st entry safe_path
            (acts0 ++ [FsAction.createNewFile safe_path])
        | .overwrite =>
          let removeActs := if fs.symlinkAt safe_path
            then [FsAction.removeFile safe_path] else []
          writeFilePart cfg st entry safe_path
            (acts0 ++ removeActs ++ [FsAction.truncCreate safe_path])

/-- The per-entry loop of `Extractor::validate_all` (extractor.rs lines
618-672), with its two accumulators for the totals of non-directory,
non-symlink entries. -/
def validateEntries (jail : JailFn) (limits : Limits)
    (symlinks : ExtSymlinkPolicy) :
    List ZipEntry → Nat → Nat → Except Error (Nat × Nat)
  | [], total_size, file_count => .ok (total_size, file_count)
  | e :: rest, total_size, file_count =>
    match validate_filename e.name with
    | .error reason => .error (.InvalidFilename e.name reason)
    | .ok _ =>
    match jail e.name with
    | .error d => .error (.PathEscape e.name d)
    | .ok _ =>
    if e.is_symlink ∧ symlinks = .error then
      .error (.SymlinkNotAllowed e.name "")
    else
      let depth := normalDepth e.name
      if depth > limits.max_path_depth then
        .error (.PathTooDeep e.name depth limits.max_path_depth)
      else if e.is_dir = false ∧ e.size > limits.max_single_file then
        .error (.FileTooLarge e.name limits.max_single_file e.size)
      else if e.is_dir = false ∧ e.is_symlink = false then
        validateEntries jail limits symlinks rest
          (wrapAdd total_size e.size) (file_count + 1)
      else
        validateEntries jail limits symlinks rest total_size file_count

/-- `Extractor::validate_all` (extractor.rs lines 614-690): the metadata
pass plus its two final accumulated-total checks. Only the jail, the limits
and the symlink policy of the configuration are consulted. -/
def validate_all (cfg : ExtractorCfg) (entries : List ZipEntry) :
    Except Error Unit :=
  match validateEntries cfg.jail cfg.limits cfg.symlinks entries 0 0 with
  | .error e => .error e
  | .ok (total_size, file_count) =>
    if total_size > cfg.limits.max_total_bytes then
      .error (.TotalSizeExceeded cfg.limits.max_total_bytes total_size)
    else if file_count > cfg.limits.max_file_count then
      .error (.FileCountExceeded cfg.limits.max_file_count file_count)
    else .ok ()

/-- The `for i in 0..total_entries` loop of `Extractor::extract`. -/
def extractLoop (cfg : ExtractorCfg) (fs : FsOracle) :
    List ZipEntry → ExtLoopState → Except Error ExtLoopState × List FsAction
  | [], st => (.ok st, [])
  | e :: rest, st =>
    match extractStep cfg fs st e with
    | .fail err acts => (.error err, acts)
    | .ok st2 acts =>
      match extractLoop cfg fs rest st2 with
      | (r, acts2) => (r, acts ++ acts2)

def extractRun (cfg : ExtractorCfg) (fs : FsOracle) (archive : List ZipEntry) :
    Except Error Report × List FsAction :=
  match extractLoop cfg fs archive ExtLoopState.init with
  | (.ok st, acts) => (.ok st.report, acts)
  | (.error e, acts) => (.error e, acts)

/-- `Extractor::extract` (extractor.rs lines 338-602): in `ValidateFirst`
mode the dry-run validation pass runs before the extraction loop and a
validation error aborts with no filesystem action performed. -/
def Extractor.extract (cfg : ExtractorCfg) (fs : FsOracle)
    (archive : List ZipEntry) : Except Error Report × List FsAction :=
  match cfg.mode with
  | .validateFirst =>
    match validate_all cfg archive with
    | .error e => (.error e, [])
    | .ok _ => extractRun cfg fs archive
  | .streaming => extractRun cfg fs archive

/-- `LimitReader` from extractor.rs (fields only; the wrapped reader is
passed to `read` as the count it yields). -/
structure LimitReader where
  limit : Nat
  bytes_read : Nat
  hit_limit : Bool
deriving DecidableEq, Repr

/-- `LimitReader::read` (extractor.rs lines 852-872). `bufLen` is the
caller's buffer size and `innerRet` the byte count the wrapped reader
returns for the capped request (a well-behaved `Read` returns at most the
requested length). -/
def LimitReader.read (r : LimitReader) (bufLen innerRet : Nat) :
    Nat × LimitReader :=
  if r.bytes_read ≥ r.limit then
    (0, { r with hit_limit := true })
  else
    let remaining := r.limit - r.bytes_read
    let len := min bufLen remaining
    let n := min innerRet len
    let newCount := wrapAdd r.bytes_read n
    (n, { r with bytes_read := newCount,
                 hit_limit := if newCount ≥ r.limit then true else r.hit_limit })

/-- `OverwriteMode` from driver.rs. -/
inductive OverwriteMode where
  | error
  | skip
  | overwrite
deriving DecidableEq, Repr

/-- `ValidationMode` from driver.rs. -/
inductive ValidationMode where
  | streaming
  | validateFirst
deriving DecidableEq, Repr

/-- `ExtractionReport` from driver.rs. -/
structure ExtractionReport where
  files_extracted : Nat
  dirs_created : Nat
  bytes_written : Nat
  entries_skipped : Nat
deriving DecidableEq, Repr

def reportOfState (s : ExtractionState) : ExtractionReport :=
  ⟨s.files_extracted, s.dirs_created, s.bytes_written, s.entries_skipped⟩

/-- The configuration fields of `Driver` (driver.rs). -/
structure DriverCfg where
  destination : String
  jail : JailFn
  limits : Limits
  overwrite : OverwriteMode
  symlinks : SymlinkBehavior
  validation : ValidationMode
  filter : Option (EntryInfo → Bool)

/-- `PolicyChain::check_all` over the chain `Driver::build_policies`
assembles (driver.rs lines 152-162): Path, Size, Count, Depth, Symlink, in
that order, short-circuiting on the first error. -/
def Driver.check_all (cfg : DriverCfg) (entry : EntryInfo)
    (state : ExtractionState) : Except Error Unit := do
  PathPolicy.check cfg.jail entry
  SizePolicy.check cfg.limits.max_single_file cfg.limits.max_total_bytes entry state
  CountPolicy.check cfg.limits.max_file_count state
  DepthPolicy.check cfg.limits.max_path_depth entry
  SymlinkPolicy.check cfg.symlinks entry

/-- Modelled from the spec: `ZipAdapter::extract_to` (zip_adapter.rs is not
under `src/`). Per the adapter contract of §4.E it writes the entry's
decompressed bytes to the writer, capped at `limit`, and returns the actual
byte count written; `streamLen` is the decompressed stream's length. -/
def ZipAdapter.extract_to (streamLen limit : Nat) : Nat :=
  min streamLen limit

/-- A ZIP entry as the Driver sees it: adapter metadata plus the
decompressed stream length. -/
structure DEntry where
  info : EntryInfo
  actual : Nat

def EntryKind.isSymlinkKind : EntryKind → Bool
  | .symlink _ => true
  | _ => false

def EntryKind.isFileKind : EntryKind → Bool
  | .file => true
  | _ => false

/-- The write phase of `Driver::extract_zip_entry` (driver.rs lines
298-316): limit computation with saturating subtraction, the adapter copy,
permission masking, then the counter updates. No post-copy size probe is
performed on this path. -/
def driverWriteZip (cfg : DriverCfg) (st : ExtractionState) (e : DEntry)
    (safe_path : String) (acts : List FsAction) : StepOut ExtractionState :=
  let limit := min cfg.limits.max_single_file
    (cfg.limits.max_total_bytes - st.bytes_written)
  let written := ZipAdapter.extract_to e.actual limit
  let acts := acts ++ [FsAction.writeBytes safe_path written]
  let acts := acts ++ (match e.info.mode with
    | some m => [FsAction.setPermissions safe_path (m &&& 0o777)]
    | none => [])
  .ok { st with bytes_written := wrapAdd st.bytes_written written,
                files_extracted := st.files_extracted + 1 } acts

/-- `Driver::extract_zip_entry` (driver.rs lines 213-324): the user filter
runs FIRST, then the policy chain, then symlink skipping, then
materialization at the literal `destination.join(name)` path. -/
def Driver.extract_zip_entry (cfg : DriverCfg) (fs : FsOracle)
    (st : ExtractionState) (e : DEntry) : StepOut ExtractionState :=
  let info := e.info
  let filteredOut := match cfg.filter with
    | some f => !(f info)
    | none => false
  if filteredOut then
    .ok { st with entries_skipped := st.entries_skipped + 1 } []
  else
    match Driver.check_all cfg info st with
    | .error err => .fail err []
    | .ok _ =>
      if info.kind.isSymlinkKind then
        .ok { st with entries_skipped := st.entries_skipped + 1 } []
      else
        let safe_path := pathJoin cfg.destination info.name
        match info.kind with
        | .directory =>
          .ok { st with dirs_created := st.dirs_created + 1 }
            [FsAction.createDirAll safe_path]
        | .file =>
          let acts0 := [FsAction.createDirAll (parentPath safe_path)]
          match cfg.overwrite with
          | .error =>
            if fs.fileIsAt safe_path then .fail (.AlreadyExists safe_path) acts0
            else driverWriteZip cfg st e safe_path
              (acts0 ++ [FsAction.createNewFile safe_path])
          | .skip =>
            if fs.fileIsAt safe_path then
              .ok { st with entries_skipped := st.entries_skipped + 1 } acts0
            else driverWriteZip cfg st e safe_path
              (acts0 ++ [FsAction.createNewFile safe_path])
          | .overwrite =>
            let removeActs := if fs.symlinkAt safe_path
              then [FsAction.removeFile safe_path] else []
            driverWriteZip cfg st e safe_path
              (acts0 ++ removeActs ++ [FsAction.truncCreate safe_path])
        | .symlink _ => .ok st []

/-- Outcome of `Driver::open_for_write`: a file handle obtained (Some), an
existing file skipped (None), or an error. -/
inductive OpenOut where
  | opened (acts : List FsAction)
  | skippedExisting (acts : List FsAction)
  | failed (e : Error) (acts : List FsAction)
deriving DecidableEq, Repr

/-- `Driver::open_for_write` (driver.rs lines 527-571); the
`entries_skipped` increment of the Skip case is folded into the caller. -/
def Driver.open_for_write (cfg : DriverCfg) (fs : FsOracle) (path : String) :
    OpenOut :=
  match cfg.overwrite with
  | .error =>
    if fs.fileIsAt path then .failed (.AlreadyExists path) []
    else .opened [FsAction.createNewFile path]
  | .skip =>
    if fs.fileIsAt path then .skippedExisting []
    else .opened [FsAction.createNewFile path]
  | .overwrite =>
    .opened ((if fs.symlinkAt path then [FsAction.removeFile path] else []) ++
      [FsAction.truncCreate path])

/-- `copy_limited` from tar_adapter.rs (lines 208-233): copies the entry
stream in 8 KiB chunks until the limit or the stream end is reached; the
total copied is the smaller of the stream length and the limit. -/
def copy_limited (streamLen limit : Nat) : Nat :=
  min streamLen limit

/-- `Driver::extract_tar_entry` (driver.rs lines 392-458, streaming mode):
filter first, then the policy chain, symlink skipping, and a
`copy_limited`-bounded write. No post-copy size probe is performed and no
`SizeMismatch` can arise on this path. -/
def Driver.extract_tar_entry (cfg : DriverCfg) (fs : FsOracle)
    (st : ExtractionState) (info : EntryInfo) (streamLen : Nat) :
    StepOut ExtractionState :=
  let filteredOut := match cfg.filter with
    | some f => !(f info)
    | none => false
  if filteredOut then
    .ok { st with entries_skipped := st.entries_skipped + 1 } []
  else
    match Driver.check_all cfg info st with
    | .error err => .fail err []
    | .ok _ =>
      if info.kind.isSymlinkKind then
        .ok { st with entries_skipped := st.entries_skipped + 1 } []
      else
        let safe_path := pathJoin cfg.destination info.name
        match info.kind with
        | .directory =>
          .ok { st with dirs_created := st.dirs_created + 1 }
            [FsAction.createDirAll safe_path]
        | .file =>
          let acts0 := [FsAction.createDirAll (parentPath safe_path)]
          match Driver.open_for_write cfg fs safe_path with
          | .failed e acts => .fail e (acts0 ++ acts)
          | .skippedExisting acts =>
            .ok { st with entries_skipped := st.entries_skipped + 1 }
              (acts0 ++ acts)
          | .opened acts =>
            let limit := min cfg.limits.max_single_file
              (cfg.limits.max_total_bytes - st.bytes_written)
            let written := copy_limited streamLen limit
            let acts2 := acts0 ++ acts ++ [FsAction.writeBytes safe_path written]
            let acts3 := acts2 ++ (match info.mode with
              | some m => [FsAction.setPermissions safe_path (m &&& 0o777)]
              | none => [])
            .ok { st with bytes_written := wrapAdd st.bytes_written written,
                          files_extracted := st.files_extracted + 1 } acts3
        | .symlink _ => .ok st []

/-- `Driver::extract_tar_entry_data` (driver.rs lines 461-523, cached
ValidateFirst mode): like the streaming variant, but the whole cached
content (of length `dataLen`) is written with `write_all`, with no limit
applied to the write itself. -/
def Driver.extract_tar_entry_data (cfg : DriverCfg) (fs : FsOracle)
    (st : ExtractionState) (info : EntryInfo) (dataLen : Nat) :
    StepOut ExtractionState :=
  let filteredOut := match cfg.filter with
    | some f => !(f info)
    | none => false
  if filteredOut then
    .ok { st with entries_skipped := st.entries_skipped + 1 } []
  else
    match Driver.check_all cfg info st with
    | .error err => .fail err []
    | .ok _ =>
      if info.kind.isSymlinkKind then
        .ok { st with entries_skipped := st.entries_skipped + 1 } []
      else
        let safe_path := pathJoin cfg.destination info.name
        match info.kind with
        | .directory =>
          .ok { st with dirs_created := st.dirs_created + 1 }
            [FsAction.createDirAll safe_path]
        | .file =>
          let acts0 := [FsAction.createDirAll (parentPath safe_path)]
          match Driver.open_for_write cfg fs safe_path with
          | .failed e acts => .fail e (acts0 ++ acts)
          | .skippedExisting acts =>
            .ok { st with entries_skipped := st.entries_skipped + 1 }
              (acts0 ++ acts)
          | .opened acts =>
            let acts2 := acts0 ++ acts ++ [FsAction.writeBytes safe_path dataLen]
            let acts3 := acts2 ++ (match info.mode with
              | some m => [FsAction.setPermissions safe_path (m &&& 0o777)]
              | none => [])
            .ok { st with bytes_written := wrapAdd st.bytes_written dataLen,
                          files_extracted := st.files_extracted + 1 } acts3
        | .symlink _ => .ok st []

/-- The validation loop of `Driver::extract_tar` in ValidateFirst mode
(driver.rs lines 348-358): policies over the cached metadata, accumulating
declared sizes and file counts into the dry-run state. -/
def Driver.validateCached (cfg : DriverCfg) :
    List (EntryInfo × Nat) → ExtractionState → Except Error Unit
  | [], _ => .ok ()
  | (info, _) :: rest, st =>
    match Driver.check_all cfg info st with
    | .error e => .error e
    | .ok _ =>
      let st2 := if info.kind.isFileKind then
          { st with bytes_written := wrapAdd st.bytes_written info.size,
                    files_extracted := st.files_extracted + 1 }
        else st
      Driver.validateCached cfg rest st2

/-- The streaming `for_each` loop of `Driver::extract_tar`. Each archive
member is its metadata plus its content-stream length. -/
def Driver.tarLoop (cfg : DriverCfg) (fs : FsOracle) :
    List (EntryInfo × Nat) → ExtractionState →
    Except Error ExtractionState × List FsAction
  | [], st => (.ok st, [])
  | (info, len) :: rest, st =>
    match Driver.extract_tar_entry cfg fs st info len with
    | .fail e acts => (.error e, acts)
    | .ok st2 acts =>
      match Driver.tarLoop cfg fs rest st2 with
      | (r, acts2) => (r, acts ++ acts2)

/-- The `extract_cached` loop of `Driver::extract_tar` in ValidateFirst
mode; the cached data length of a member equals its stream length. -/
def Driver.tarCachedLoop (cfg : DriverCfg) (fs : FsOracle) :
    List (EntryInfo × Nat) → ExtractionState →
    Except Error ExtractionState × List FsAction
  | [], st => (.ok st, [])
  | (info, len) :: rest, st =>
    match Driver.extract_tar_entry_data cfg fs st info len with
    | .fail e acts => (.error e, acts)
    | .ok st2 acts =>
      match Driver.tarCachedLoop cfg fs rest st2 with
      | (r, acts2) => (r, acts ++ acts2)

/-- `Driver::extract_tar` (driver.rs lines 340-389): in ValidateFirst mode
the archive is cached in memory (no filesystem action), validated entirely,
and only then extracted from the cache; a validation error aborts with no
filesystem action performed. -/
def Driver.extract_tar (cfg : DriverCfg) (fs : FsOracle)
    (entries : List (EntryInfo × Nat)) :
    Except Error ExtractionReport × List FsAction :=
  match cfg.validation with
  | .validateFirst =>
    match Driver.validateCached cfg entries ExtractionState.init with
    | .error e => (.error e, [])
    | .ok _ =>
      match Driver.tarCachedLoop cfg fs entries ExtractionState.init with
      | (.ok st, acts) => (.ok (reportOfState st), acts)
      | (.error e, acts) => (.error e, acts)
  | .streaming =>
    match Driver.tarLoop cfg fs entries ExtractionState.init with
    | (.ok st, acts) => (.ok (reportOfState st), acts)
    | (.error e, acts) => (.error e, acts)

def StepOut.acts {σ : Type} : StepOut σ → List FsAction
  | .ok _ a => a
  | .fail _ a => a

/-- The observable shape of a jail-join result: success (value discarded)
or the error detail. -/
def jailShape (r : Except String String) : Option String :=
  match r with
  | .ok _ => none
  | .error d => some d

/-- The invariant of claim C2 on the extractor's loop state: both counters
within their limits, and the report counter in lockstep with the separate
accumulator. -/
def ExtInvariant (limits : Limits) (st : ExtLoopState) : Prop :=
  st.total_bytes_written ≤ limits.max_total_bytes ∧
  st.report.files_extracted ≤ limits.max_file_count ∧
  st.report.bytes_written = st.total_bytes_written

/-- The invariant of claim C2 on the driver's extraction state. -/
def DrvInvariant (limits : Limits) (st : ExtractionState) : Prop :=
  st.bytes_written ≤ limits.max_total_bytes ∧
  st.files_extracted ≤ limits.max_file_count

/-- A concrete jail for witnesses: rejects names with `..` components. -/
def jailDemo : JailFn := fun n =>
  if (pathComponents n).any (fun c => c = RComponent.parentDir) then
    .error "path escapes jail root"
  else .ok (pathJoin "/dst" n)

/-- A second concrete jail with the same accept/reject shape as `jailDemo`
but different success values. -/
def jailDemo2 : JailFn := fun n =>
  if (pathComponents n).any (fun c => c = RComponent.parentDir) then
    .error "path escapes jail root"
  else .ok "/elsewhere"

def fsDemo : FsOracle := ⟨fun _ => false, fun _ => false⟩

def limitsDemo : Limits := ⟨1000, 100, 10, 5⟩

def extCfgDemo : ExtractorCfg :=
  ⟨"/dst", jailDemo, limitsDemo, .error, .skip, .validateFirst, none⟩

def zBad : ZipEntry := ⟨"../evil", 10, 5, false, false, none, 10⟩

def zGood : ZipEntry := ⟨"a.txt", 5, 5, false, false, some 0o644, 5⟩

def zLink : ZipEntry := ⟨"lnk", 0, 0, false, true, none, 0⟩

def extCfgSymErr : ExtractorCfg :=
  ⟨"/dst", jailDemo, limitsDemo, .error, .error, .streaming, none⟩

def limitsSmall : Limits := ⟨1000, 5, 10, 5⟩

def dCfgDemo : DriverCfg :=
  ⟨"/dst", jailDemo, limitsDemo, .error, .skip, .streaming, none⟩

def dCfgSmall : DriverCfg :=
  ⟨"/dst", jailDemo, limitsSmall, .error, .skip, .streaming, none⟩

def dCfgFilterAll : DriverCfg :=
  ⟨"/dst", jailDemo, limitsDemo, .error, .skip, .streaming, some (fun _ => false)⟩

def infoTxt : EntryInfo := ⟨"a.txt", 5, .file, none⟩

def infoCON : EntryInfo := ⟨"CON", 5, .file, none⟩

def zDeep : ZipEntry := ⟨"a/b/c/d/e/f", 1, 1, false, false, none, 1⟩

def zLiar : ZipEntry := ⟨"liar.txt", 5, 3, false, false, none, 9⟩

/-- C1: with strategy ValidateFirst, a rejection by the validation pass
(filename, jail, symlink, depth, single-file size, total size or file
count) aborts `Extractor::extract` with that error and an empty filesystem
trace, and likewise a rejection by the driver's TAR validation pass aborts
`Driver::extract_tar` with an empty trace: the destination is left exactly
as it was. -/
theorem C1_validate_first_no_writes :
    (∀ (cfg : ExtractorCfg) (fs : FsOracle) (archive : List ZipEntry) (e : Error),
      cfg.mode = .validateFirst → validate_all cfg archive = .error e →
      Extractor.extract cfg fs archive = (.error e, [])) ∧
    (∀ (cfg : DriverCfg) (fs : FsOracle) (entries : List (EntryInfo × Nat)) (e : Error),
      cfg.validation = .validateFirst →
      Driver.validateCached cfg entries ExtractionState.init = .error e →
      Driver.extract_tar cfg fs entries = (.error e, [])) := by
  constructor
  · intro cfg fs archive e hm hv
    unfold Extractor.extract
    rw [hm, hv]
  · intro cfg fs entries e hm hv
    unfold Driver.extract_tar
    rw [hm, hv]

/-- Witness for C1 at a concrete archive whose second entry escapes the
jail: validation rejects it and the extraction returns that error with an
empty action trace. -/
theorem C1_witness :
    Extractor.extract extCfgDemo fsDemo [zGood, zBad] =
      (.error (.PathEscape "../evil" "path escapes jail root"), []) :=
  C1_validate_first_no_writes.1 extCfgDemo fsDemo [zGood, zBad]
    (.PathEscape "../evil" "path escapes jail root") rfl rfl

/-- C5: the code evaluated at the wraparound input. The entry passes the
single-file check, the exact sum 50 + (2^64 − 10) far exceeds the total
limit 100, yet `SizePolicy::check` computes the u64 sum, which wraps to 40,
and accepts the entry — the sum is NOT exact unbounded arithmetic. -/
theorem C5_wraparound_evaluation :
    SizePolicy.check (2 ^ 64 - 1) 100 ⟨"big", 2 ^ 64 - 10, .file, none⟩
      ⟨0, 0, 50, 0⟩ = .ok () ∧
    50 + (2 ^ 64 - 10) > 100 ∧
    wrapAdd 50 (2 ^ 64 - 10) = 40 := by
  refine ⟨rfl, by norm_num, rfl⟩

/-- C9: the ValidateFirst validation pass of the extractor never consults
the filter predicate: two configurations equal in every field except the
filter produce identical validation outcomes on every archive. -/
theorem C9_validation_filter_independent
    (cfg1 cfg2 : ExtractorCfg)
    (hjail : cfg1.jail = cfg2.jail) (hlim : cfg1.limits = cfg2.limits)
    (hsym : cfg1.symlinks = cfg2.symlinks)
    (hroot : cfg1.root = cfg2.root) (hov : cfg1.overwrite = cfg2.overwrite)
    (hmode : cfg1.mode = cfg2.mode)
    (archive : List ZipEntry) :
    validate_all cfg1 archive = validate_all cfg2 archive := by
  unfold validate_all
  rw [hjail, hlim, hsym]

/-- Witness for C9: a filterless configuration and one whose filter rejects
everything validate the same archive identically. -/
theorem C9_witness :
    validate_all extCfgDemo [zGood, zLink] =
      validate_all { extCfgDemo with filter := some (fun _ => false) }
        [zGood, zLink] :=
  C9_validation_filter_independent extCfgDemo
    { extCfgDemo with filter := some (fun _ => false) }
    rfl rfl rfl rfl rfl rfl [zGood, zLink]

theorem writeFilePart_errors (cfg : ExtractorCfg) (st : ExtLoopState)
    (z : ZipEntry) (p : String) (acts : List FsAction) (e : Error)
    (acts2 : List FsAction)
    (h : writeFilePart cfg st z p acts = .fail e acts2) :
    (∃ a b c, e = .FileTooLarge a b c) ∨
    (∃ a b, e = .TotalSizeExceeded a b) ∨
    (∃ a b c, e = .SizeMismatch a b c) := by
  simp only [writeFilePart] at h
  split_ifs at h
  · injection h with h1 h2
    exact Or.inl ⟨_, _, _, h1.symm⟩
  · injection h with h1 h2
    exact Or.inr (Or.inl ⟨_, _, h1.symm⟩)
  · injection h with h1 h2
    exact Or.inr (Or.inr ⟨_, _, _, h1.symm⟩)

theorem extractStep_symlink_target (cfg : ExtractorCfg) (fs : FsOracle)
    (st : ExtLoopState) (z : ZipEntry) (n t : String) (acts : List FsAction)
    (h : extractStep cfg fs st z = .fail (.SymlinkNotAllowed n t) acts) :
    t = "" := by
  simp only [extractStep] at h
  split at h
  · simp at h
  split at h
  · simp at h
  split at h
  · split at h
    · simp at h
      exact h.1.2.symm
    · simp at h
  · split at h
    · simp at h
    split at h
    · simp at h
    split at h
    · simp at h
    split at h
    · simp at h
    split at h
    · simp at h
    split at h
    · simp at h
    · split at h
      · split at h
        · simp at h
        · rcases writeFilePart_errors _ _ _ _ _ _ _ h with ⟨_,_,_,hh⟩|⟨_,_,hh⟩|⟨_,_,_,hh⟩ <;> simp at hh
      · split at h
        · simp at h
        · rcases writeFilePart_errors _ _ _ _ _ _ _ h with ⟨_,_,_,hh⟩|⟨_,_,hh⟩|⟨_,_,_,hh⟩ <;> simp at hh
      · rcases writeFilePart_errors _ _ _ _ _ _ _ h with ⟨_,_,_,hh⟩|⟨_,_,hh⟩|⟨_,_,_,hh⟩ <;> simp at hh

theorem extractLoop_symlink_target (cfg : ExtractorCfg) (fs : FsOracle)
    (archive : List ZipEntry) :
    ∀ (st : ExtLoopState) (n t : String) (acts : List FsAction),
    extractLoop cfg fs archive st = (.error (.SymlinkNotAllowed n t), acts) →
    t = "" := by
  induction archive with
  | nil =>
    intro st n t acts h
    simp [extractLoop] at h
  | cons z rest ih =>
    intro st n t acts h
    rw [extractLoop] at h
    cases hs : extractStep cfg fs st z with
    | fail err a =>
      rw [hs] at h
      simp at h
      obtain ⟨he, -⟩ := h
      exact extractStep_symlink_target cfg fs st z n t a (by rw [hs, he])
    | ok st2 a =>
      rw [hs] at h
      dsimp only at h
      rcases hl : extractLoop cfg fs rest st2 with ⟨r, acts2⟩
      rw [hl] at h
      simp at h
      obtain ⟨hr, -⟩ := h
      exact ih st2 n t acts2 (by rw [hl, hr])

theorem validateEntries_symlink_target (jail : JailFn) (limits : Limits)
    (symlinks : ExtSymlinkPolicy) (es : List ZipEntry) :
    ∀ (ts fc : Nat) (n t : String),
    validateEntries jail limits symlinks es ts fc =
      .error (.SymlinkNotAllowed n t) →
    t = "" := by
  induction es with
  | nil =>
    intro ts fc n t h
    simp [validateEntries] at h
  | cons z rest ih =>
    intro ts fc n t h
    rw [validateEntries] at h
    split at h
    · simp at h
    split at h
    · simp at h
    split at h
    · simp at h
      exact h.2.symm
    · split_ifs at h <;>
        first
        | (simp at h; done)
        | (exact ih _ _ _ _ h)
        | (dsimp only at h; split at h <;>
            first | (simp at h; done) | (exact ih _ _ _ _ h))

theorem validate_all_symlink_target (cfg : ExtractorCfg)
    (entries : List ZipEntry) (n t : String)
    (h : validate_all cfg entries = .error (.SymlinkNotAllowed n t)) :
    t = "" := by
  unfold validate_all at h
  cases hv : validateEntries cfg.jail cfg.limits cfg.symlinks entries 0 0 with
  | error e =>
    rw [hv] at h
    simp at h
    exact validateEntries_symlink_target cfg.jail cfg.limits cfg.symlinks
      entries 0 0 n t (by rw [hv, h])
  | ok p =>
    rcases p with ⟨ts, fc⟩
    rw [hv] at h
    dsimp only at h
    split_ifs at h <;> simp at h

theorem extractRun_symlink_target (cfg : ExtractorCfg) (fs : FsOracle)
    (archive : List ZipEntry) (n t : String) (acts : List FsAction)
    (h : extractRun cfg fs archive = (.error (.SymlinkNotAllowed n t), acts)) :
    t = "" := by
  unfold extractRun at h
  rcases hl : extractLoop cfg fs archive ExtLoopState.init with ⟨r, a⟩
  rw [hl] at h
  cases r with
  | error e =>
    simp at h
    obtain ⟨he, -⟩ := h
    exact extractLoop_symlink_target cfg fs archive ExtLoopState.init n t a
      (by rw [hl, he])
  | ok st =>
    simp at h

/-- C10: on the ZIP paths of extractor.rs (both the extraction loop and the
ValidateFirst dry run) a `SymlinkNotAllowed` error always carries an empty
target string — the symlink target is never read from the entry content. -/
theorem C10_symlink_error_empty_target (cfg : ExtractorCfg) (fs : FsOracle)
    (archive : List ZipEntry) (n t : String) (acts : List FsAction)
    (h : Extractor.extract cfg fs archive =
      (.error (.SymlinkNotAllowed n t), acts)) :
    t = "" := by
  unfold Extractor.extract at h
  cases hm : cfg.mode with
  | validateFirst =>
    rw [hm] at h
    cases hv : validate_all cfg archive with
    | error e =>
      rw [hv] at h
      simp at h
      obtain ⟨he, -⟩ := h
      exact validate_all_symlink_target cfg archive n t (by rw [hv, he])
    | ok u =>
      rw [hv] at h
      exact extractRun_symlink_target cfg fs archive n t acts h
  | streaming =>
    rw [hm] at h
    exact extractRun_symlink_target cfg fs archive n t acts h

/-- Witness for C10: a concrete symlink entry under policy Error produces
exactly `SymlinkNotAllowed` with the empty target. -/
theorem C10_witness :
    Extractor.extract extCfgSymErr fsDemo [zLink] =
      (.error (.SymlinkNotAllowed "lnk" ""), []) ∧ ("" : String) = "" :=
  ⟨rfl, C10_symlink_error_empty_target extCfgSymErr fsDemo [zLink] "lnk" "" [] rfl⟩

theorem extractStep_depth_fail (cfg : ExtractorCfg) (fs : FsOracle)
    (st : ExtLoopState) (z : ZipEntry) (n : String) (dep d : Nat)
    (acts : List FsAction)
    (h : extractStep cfg fs st z = .fail (.PathTooDeep n dep d) acts) :
    normalDepth z.name > cfg.limits.max_path_depth := by
  simp only [extractStep] at h
  split at h
  · simp at h
  split at h
  · simp at h
  split at h
  · split at h
    · simp at h
    · simp at h
  · split at h
    · assumption
    split at h
    · simp at h
    split at h
    · simp at h
    split at h
    · simp at h
    split at h
    · simp at h
    split at h
    · simp at h
    · split at h
      · split at h
        · simp at h
        · rcases writeFilePart_errors _ _ _ _ _ _ _ h with ⟨_,_,_,hh⟩|⟨_,_,hh⟩|⟨_,_,_,hh⟩ <;> simp at hh
      · split at h
        · simp at h
        · rcases writeFilePart_errors _ _ _ _ _ _ _ h with ⟨_,_,_,hh⟩|⟨_,_,hh⟩|⟨_,_,_,hh⟩ <;> simp at hh
      · rcases writeFilePart_errors _ _ _ _ _ _ _ h with ⟨_,_,_,hh⟩|⟨_,_,hh⟩|⟨_,_,_,hh⟩ <;> simp at hh

/-- Counterexample to C4 as stated: the name `"../a"` has exactly one
non-`.`/`..` component, which does not exceed the limit 1, yet
`DepthPolicy::check` rejects it with `PathTooDeep`, because it counts the
`..` component as well (total component count 2). -/
theorem C4_counterexample :
    DepthPolicy.check 1 ⟨"../a", 0, .file, none⟩ =
      .error (.PathTooDeep "../a" 2 1) ∧
    ((pathComponents "../a").filter RComponent.isNormal).length = 1 ∧
    ¬ ((pathComponents "../a").filter RComponent.isNormal).length > 1 := by
  exact ⟨rfl, rfl, by decide⟩

/-- C4 (amended): `DepthPolicy::check` rejects with `PathTooDeep` exactly
when the TOTAL number of path components of the entry name — `.`, `..` and
any root prefix included — exceeds `max_path_depth`, while the inline depth
check of `Extractor::extract` rejects exactly when the number of Normal
(non-`.`/`..`, non-root) components exceeds `max_path_depth`. -/
theorem C4_depth_semantics :
    (∀ (e : EntryInfo) (d : Nat),
      DepthPolicy.check d e ≠ .ok () ↔ (pathComponents e.name).length > d) ∧
    (∀ (e : EntryInfo) (d : Nat),
      (pathComponents e.name).length > d →
      DepthPolicy.check d e =
        .error (.PathTooDeep e.name (pathComponents e.name).length d)) ∧
    (∀ (cfg : ExtractorCfg) (fs : FsOracle) (st : ExtLoopState)
       (z : ZipEntry) (p : String),
      validate_filename z.name = .ok () → cfg.jail z.name = .ok p →
      z.is_symlink = false →
      (extractStep cfg fs st z =
          .fail (.PathTooDeep z.name (normalDepth z.name)
            cfg.limits.max_path_depth) [] ↔
        normalDepth z.name > cfg.limits.max_path_depth)) := by
  refine ⟨?_, ?_, ?_⟩
  · intro e d
    unfold DepthPolicy.check
    by_cases hd : (pathComponents e.name).length > d
    · simp [hd]
    · simp [hd]
  · intro e d hd
    unfold DepthPolicy.check
    simp [hd]
  · intro cfg fs st z p hval hjail hsym
    constructor
    · intro h
      exact extractStep_depth_fail cfg fs st z _ _ _ _ h
    · intro hgt
      simp only [extractStep, hval, hjail, hsym]
      simp [hgt]

/-- Witness for C4: a six-component name against depth limit 5 makes the
extractor's inline check fail with `PathTooDeep 6 5`. -/
theorem C4_witness :
    extractStep extCfgDemo fsDemo ExtLoopState.init zDeep =
      .fail (.PathTooDeep "a/b/c/d/e/f" 6 5) [] :=
  (C4_depth_semantics.2.2 extCfgDemo fsDemo ExtLoopState.init zDeep
    "/dst/a/b/c/d/e/f" rfl rfl rfl).mpr (by decide)

/-- Counterexample to C7 as stated: in `Driver::extract_zip_entry` the
filter runs BEFORE the policy checks. The entry named `CON` violates
`PathPolicy` (Windows reserved name), so under the claim the filter would
never be consulted and extraction would fail with `InvalidFilename`; the
code instead consults the filter first and silently skips the entry. -/
theorem C7_counterexample :
    Driver.extract_zip_entry dCfgFilterAll fsDemo ExtractionState.init
      ⟨infoCON, 5⟩ = .ok ⟨0, 0, 0, 1⟩ [] ∧
    Driver.check_all dCfgFilterAll infoCON ExtractionState.init =
      .error (.InvalidFilename "CON" "Windows reserved name") := by
  exact ⟨rfl, rfl⟩

/-- C7 (amended): in the Driver pipeline the filter predicate is evaluated
BEFORE the policy checks — a false filter bypasses them entirely — while in
the Extractor pipeline it is evaluated after the filename, jail, symlink
and depth checks but before the count and size checks. In both pipelines a
false filter increments `entries_skipped` by one and the entry is neither
written nor counted into any other counter. -/
theorem C7_filter_placement :
    (∀ (cfg : DriverCfg) (fs : FsOracle) (st : ExtractionState) (e : DEntry)
       (f : EntryInfo → Bool),
      cfg.filter = some f → f e.info = false →
      Driver.extract_zip_entry cfg fs st e =
        .ok { st with entries_skipped := st.entries_skipped + 1 } []) ∧
    (∀ (cfg : DriverCfg) (fs : FsOracle) (st : ExtractionState)
       (info : EntryInfo) (len : Nat) (f : EntryInfo → Bool),
      cfg.filter = some f → f info = false →
      Driver.extract_tar_entry cfg fs st info len =
        .ok { st with entries_skipped := st.entries_skipped + 1 } []) ∧
    (∀ (cfg : DriverCfg) (fs : FsOracle) (st : ExtractionState)
       (info : EntryInfo) (len : Nat) (f : EntryInfo → Bool),
      cfg.filter = some f → f info = false →
      Driver.extract_tar_entry_data cfg fs st info len =
        .ok { st with entries_skipped := st.entries_skipped + 1 } []) ∧
    (∀ (cfg : ExtractorCfg) (fs : FsOracle) (st : ExtLoopState) (z : ZipEntry)
       (p : String) (f : ExtEntryInfo → Bool),
      validate_filename z.name = .ok () → cfg.jail z.name = .ok p →
      z.is_symlink = false →
      normalDepth z.name ≤ cfg.limits.max_path_depth →
      cfg.filter = some f →
      f ⟨z.name, z.size, z.compressed_size, z.is_dir, z.is_symlink⟩ = false →
      extractStep cfg fs st z =
        .ok { st with report :=
          { st.report with
            entries_skipped := st.report.entries_skipped + 1 } } []) := by
  refine ⟨?_, ?_, ?_, ?_⟩
  · intro cfg fs st e f hf hfe
    simp [Driver.extract_zip_entry, hf, hfe]
  · intro cfg fs st info len f hf hfe
    simp [Driver.extract_tar_entry, hf, hfe]
  · intro cfg fs st info len f hf hfe
    simp [Driver.extract_tar_entry_data, hf, hfe]
  · intro cfg fs st z p f hval hjail hsym hle hf hfi
    rw [hsym] at hfi
    simp only [extractStep, hval, hjail, hsym]
    simp [Nat.not_lt.mpr hle, hf, hfi]

/-- Witness for C7: a rejected entry is skipped with only the
`entries_skipped` counter moved and no filesystem action. -/
theorem C7_witness :
    Driver.extract_zip_entry dCfgFilterAll fsDemo ExtractionState.init
      ⟨infoTxt, 5⟩ = .ok ⟨0, 0, 0, 1⟩ [] :=
  C7_filter_placement.1 dCfgFilterAll fsDemo ExtractionState.init
    ⟨infoTxt, 5⟩ (fun _ => false) rfl rfl

theorem PathPolicy_error_shape (jail : JailFn) (info : EntryInfo) (e : Error)
    (h : PathPolicy.check jail info = .error e) :
    (∃ a b, e = .InvalidFilename a b) ∨ (∃ a b, e = .PathEscape a b) := by
  unfold PathPolicy.check at h
  split at h
  · simp at h
    exact Or.inl ⟨_, _, h.symm⟩
  · split at h
    · simp at h
      exact Or.inr ⟨_, _, h.symm⟩
    · simp at h

theorem SizePolicy_error_shape (ms mt : Nat) (info : EntryInfo)
    (st : ExtractionState) (e : Error)
    (h : SizePolicy.check ms mt info st = .error e) :
    (∃ a b c, e = .FileTooLarge a b c) ∨ (∃ a b, e = .TotalSizeExceeded a b) := by
  unfold SizePolicy.check at h
  split_ifs at h <;> simp at h
  · exact Or.inl ⟨_, _, _, h.symm⟩
  · exact Or.inr ⟨_, _, h.symm⟩

theorem CountPolicy_error_shape (mf : Nat) (st : ExtractionState) (e : Error)
    (h : CountPolicy.check mf st = .error e) :
    ∃ a b, e = .FileCountExceeded a b := by
  unfold CountPolicy.check at h
  split_ifs at h <;> simp at h
  exact ⟨_, _, h.symm⟩

theorem DepthPolicy_error_shape (md : Nat) (info : EntryInfo) (e : Error)
    (h : DepthPolicy.check md info = .error e) :
    ∃ a b c, e = .PathTooDeep a b c := by
  unfold DepthPolicy.check at h
  dsimp only at h
  split_ifs at h <;> simp at h
  exact ⟨_, _, _, h.symm⟩

theorem SymlinkPolicy_error_shape (b : SymlinkBehavior) (info : EntryInfo)
    (e : Error) (h : SymlinkPolicy.check b info = .error e) :
    ∃ a t, e = .SymlinkNotAllowed a t := by
  unfold SymlinkPolicy.check at h
  split at h
  · split at h
    · simp at h
    · simp at h
      exact ⟨_, _, h.symm⟩
  · simp at h

theorem check_all_no_size_mismatch (cfg : DriverCfg) (info : EntryInfo)
    (st : ExtractionState) (n : String) (d a : Nat) :
    Driver.check_all cfg info st ≠ .error (.SizeMismatch n d a) := by
  intro h
  simp only [Driver.check_all, bind, Except.bind] at h
  split at h
  · rename_i e1 heq
    simp at h
    rw [h] at heq
    rcases PathPolicy_error_shape _ _ _ heq with ⟨_, _, hh⟩ | ⟨_, _, hh⟩ <;>
      simp at hh
  split at h
  · rename_i e1 heq
    simp at h
    rw [h] at heq
    rcases SizePolicy_error_shape _ _ _ _ _ heq with ⟨_, _, _, hh⟩ | ⟨_, _, hh⟩ <;>
      simp at hh
  split at h
  · rename_i e1 heq
    simp at h
    rw [h] at heq
    rcases CountPolicy_error_shape _ _ _ heq with ⟨_, _, hh⟩
    simp at hh
  split at h
  · rename_i e1 heq
    simp at h
    rw [h] at heq
    rcases DepthPolicy_error_shape _ _ _ heq with ⟨_, _, _, hh⟩
    simp at hh
  · rename_i heq
    rcases hs : SymlinkPolicy.check cfg.symlinks info with e2 | u
    · rw [hs] at h
      simp at h
      rw [h] at hs
      rcases SymlinkPolicy_error_shape _ _ _ hs with ⟨_, _, hh⟩
      simp at hh
    · rw [hs] at h
      simp at h

theorem open_for_write_error_shape (cfg : DriverCfg) (fs : FsOracle)
    (p : String) (e : Error) (acts : List FsAction)
    (h : Driver.open_for_write cfg fs p = .failed e acts) :
    ∃ q, e = .AlreadyExists q := by
  unfold Driver.open_for_write at h
  split at h <;> split_ifs at h <;> simp at h
  exact ⟨_, h.1.symm⟩

theorem extract_tar_entry_no_size_mismatch (cfg : DriverCfg) (fs : FsOracle)
    (st : ExtractionState) (info : EntryInfo) (len : Nat) (n : String)
    (d a : Nat) (acts : List FsAction) :
    Driver.extract_tar_entry cfg fs st info len ≠
      .fail (.SizeMismatch n d a) acts := by
  intro h
  simp only [Driver.extract_tar_entry] at h
  split at h
  · simp at h
  · split at h
    · rename_i e1 heq
      simp at h
      obtain ⟨he, -⟩ := h
      exact check_all_no_size_mismatch cfg info st n d a (by rw [heq, he])
    · split at h
      · simp at h
      · split at h
        · simp at h
        · split at h
          · rename_i e2 acts2 heq
            simp at h
            obtain ⟨he, -⟩ := h
            rw [he] at heq
            rcases open_for_write_error_shape _ _ _ _ _ heq with ⟨_, hh⟩
            simp at hh
          · simp at h
          · simp at h
        · simp at h

theorem extract_tar_entry_data_no_size_mismatch (cfg : DriverCfg)
    (fs : FsOracle) (st : ExtractionState) (info : EntryInfo) (len : Nat)
    (n : String) (d a : Nat) (acts : List FsAction) :
    Driver.extract_tar_entry_data cfg fs st info len ≠
      .fail (.SizeMismatch n d a) acts := by
  intro h
  simp only [Driver.extract_tar_entry_data] at h
  split at h
  · simp at h
  · split at h
    · rename_i e1 heq
      simp at h
      obtain ⟨he, -⟩ := h
      exact check_all_no_size_mismatch cfg info st n d a (by rw [heq, he])
    · split at h
      · simp at h
      · split at h
        · simp at h
        · split at h
          · rename_i e2 acts2 heq
            simp at h
            obtain ⟨he, -⟩ := h
            rw [he] at heq
            rcases open_for_write_error_shape _ _ _ _ _ heq with ⟨_, hh⟩
            simp at hh
          · simp at h
          · simp at h
        · simp at h

theorem extract_zip_entry_no_size_mismatch (cfg : DriverCfg) (fs : FsOracle)
    (st : ExtractionState) (e : DEntry) (n : String) (d a : Nat)
    (acts : List FsAction) :
    Driver.extract_zip_entry cfg fs st e ≠
      .fail (.SizeMismatch n d a) acts := by
  intro h
  simp only [Driver.extract_zip_entry] at h
  split at h
  · simp at h
  · split at h
    · rename_i e1 heq
      simp at h
      obtain ⟨he, -⟩ := h
      exact check_all_no_size_mismatch cfg e.info st n d a (by rw [heq, he])
    · split at h
      · simp at h
      · split at h
        · simp at h
        · split at h
          · split at h
            · simp at h
            · simp [driverWriteZip] at h
          · split at h
            · simp at h
            · simp [driverWriteZip] at h
          · simp [driverWriteZip] at h
        · simp at h

/-- Counterexample to C3 as stated: on the Driver's TAR streaming path the
entry declares 5 bytes, the stream yields 10, the copy stops at the 5-byte
single-file limit so the copied count equals the declared size, the stream
still holds bytes — and the step succeeds with no probe and no
`SizeMismatch`. -/
theorem C3_counterexample :
    Driver.extract_tar_entry dCfgSmall fsDemo ExtractionState.init infoTxt 10 =
      .ok ⟨1, 0, 5, 0⟩
        [FsAction.createDirAll "/dst", FsAction.createNewFile "/dst/a.txt",
         FsAction.writeBytes "/dst/a.txt" 5] ∧
    copy_limited 10 (min dCfgSmall.limits.max_single_file
      (dCfgSmall.limits.max_total_bytes - 0)) = infoTxt.size ∧
    (10 : Nat) > infoTxt.size := by
  exact ⟨rfl, rfl, by decide⟩

/-- C3 (amended): the one-byte lie probe exists on the `Extractor::extract`
ZIP path only: there, whenever the copy ends at exactly the declared size
(within both limits) and the stream holds more data, the entry fails with
`SizeMismatch` carrying the declared size and actual = declared + 1 >
declared. The Driver's paths (ZIP via the adapter, TAR streaming, TAR
cached) perform no probe and can never produce `SizeMismatch`. -/
theorem C3_probe_semantics :
    (∀ (cfg : ExtractorCfg) (st : ExtLoopState) (z : ZipEntry) (p : String)
       (acts : List FsAction),
      z.size ≤ cfg.limits.max_single_file →
      z.size ≤ cfg.limits.max_total_bytes - st.total_bytes_written →
      z.size < z.actual → z.size + 1 < 2 ^ 64 →
      writeFilePart cfg st z p acts =
        .fail (.SizeMismatch z.name z.size (z.size + 1))
          (acts ++ [FsAction.writeBytes p z.size]) ∧
      z.size < z.size + 1) ∧
    (∀ (cfg : DriverCfg) (fs : FsOracle) (st : ExtractionState)
       (info : EntryInfo) (len : Nat) (n : String) (d a : Nat)
       (acts : List FsAction),
      Driver.extract_tar_entry cfg fs st info len ≠
        .fail (.SizeMismatch n d a) acts) ∧
    (∀ (cfg : DriverCfg) (fs : FsOracle) (st : ExtractionState) (e : DEntry)
       (n : String) (d a : Nat) (acts : List FsAction),
      Driver.extract_zip_entry cfg fs st e ≠
        .fail (.SizeMismatch n d a) acts) ∧
    (∀ (cfg : DriverCfg) (fs : FsOracle) (st : ExtractionState)
       (info : EntryInfo) (len : Nat) (n : String) (d a : Nat)
       (acts : List FsAction),
      Driver.extract_tar_entry_data cfg fs st info len ≠
        .fail (.SizeMismatch n d a) acts) := by
  refine ⟨?_, ?_, ?_, ?_⟩
  · intro cfg st z p acts hs1 hs2 hs3 hs4
    have h1 : min cfg.limits.max_single_file z.size = z.size :=
      Nat.min_eq_right hs1
    have h2 : min z.size (cfg.limits.max_total_bytes - st.total_bytes_written)
        = z.size := Nat.min_eq_left hs2
    have h3 : min z.actual z.size = z.size := Nat.min_eq_right hs3.le
    have h4 : wrapAdd z.size 1 = z.size + 1 := Nat.mod_eq_of_lt hs4
    refine ⟨?_, by omega⟩
    simp only [writeFilePart, h1, h2, h3, h4]
    split_ifs with hA hB hC
    · omega
    · omega
    · rfl
    · exact absurd ⟨trivial, hs3⟩ hC
  · exact extract_tar_entry_no_size_mismatch
  · exact extract_zip_entry_no_size_mismatch
  · exact extract_tar_entry_data_no_size_mismatch

/-- C6: a `LimitReader` read returns at most
`min(buf_len, limit − bytes_read)` bytes (assuming a well-behaved inner
reader returning at most the requested length); `bytes_read` never exceeds
`limit`; and once `bytes_read ≥ limit`, a read returns zero, sets
`hit_limit`, and leaves `bytes_read` unchanged. -/
theorem C6_limit_reader (r : LimitReader) (bufLen innerRet : Nat)
    (hinner : innerRet ≤ min bufLen (r.limit - r.bytes_read))
    (hbr : r.bytes_read ≤ r.limit) (hlim : r.limit < 2 ^ 64) :
    (r.read bufLen innerRet).1 ≤ min bufLen (r.limit - r.bytes_read) ∧
    (r.read bufLen innerRet).2.bytes_read ≤ r.limit ∧
    (r.read bufLen innerRet).2.limit = r.limit ∧
    (r.limit ≤ r.bytes_read →
      (r.read bufLen innerRet).1 = 0 ∧
      (r.read bufLen innerRet).2.hit_limit = true ∧
      (r.read bufLen innerRet).2.bytes_read = r.bytes_read) := by
  unfold LimitReader.read
  by_cases h : r.bytes_read ≥ r.limit
  · simp only [if_pos h]
    exact ⟨Nat.zero_le _, hbr, trivial, fun _ => ⟨trivial, trivial, trivial⟩⟩
  · simp only [if_neg h]
    have hlen : min innerRet (min bufLen (r.limit - r.bytes_read)) ≤
        min bufLen (r.limit - r.bytes_read) := Nat.min_le_right _ _
    have hn2 : min innerRet (min bufLen (r.limit - r.bytes_read)) ≤
        r.limit - r.bytes_read := le_trans hlen (Nat.min_le_right _ _)
    have hww : wrapAdd r.bytes_read
        (min innerRet (min bufLen (r.limit - r.bytes_read))) =
        r.bytes_read + min innerRet (min bufLen (r.limit - r.bytes_read)) :=
      Nat.mod_eq_of_lt (by omega)
    refine ⟨hlen, ?_, trivial, fun hh => absurd hh h⟩
    show wrapAdd r.bytes_read _ ≤ r.limit
    rw [hww]
    omega

/-- Witness for C6 at a concrete reader: limit 10, nothing read yet, a
4-byte buffer, inner reader yielding 3 bytes. -/
theorem C6_witness :
    (LimitReader.read ⟨10, 0, false⟩ 4 3).1 ≤ min 4 (10 - 0) ∧
    (LimitReader.read ⟨10, 0, false⟩ 4 3).2.bytes_read ≤ 10 ∧
    (LimitReader.read ⟨10, 0, false⟩ 4 3).2.limit = 10 ∧
    ((10 : Nat) ≤ 0 →
      (LimitReader.read ⟨10, 0, false⟩ 4 3).1 = 0 ∧
      (LimitReader.read ⟨10, 0, false⟩ 4 3).2.hit_limit = true ∧
      (LimitReader.read ⟨10, 0, false⟩ 4 3).2.bytes_read = 0) :=
  C6_limit_reader ⟨10, 0, false⟩ 4 3 (by decide) (by decide) (by decide)

/-- Witness for C3: the probe on the extractor path, at a concrete entry
declaring 5 bytes with a 9-byte stream. -/
theorem C3_witness :
    writeFilePart extCfgDemo ExtLoopState.init zLiar "/dst/liar.txt" [] =
      .fail (.SizeMismatch "liar.txt" 5 6)
        [FsAction.writeBytes "/dst/liar.txt" 5] ∧ (5 : Nat) < 6 :=
  C3_probe_semantics.1 extCfgDemo ExtLoopState.init zLiar "/dst/liar.txt" []
    (by decide) (by decide) (by decide) (by decide)

theorem writeFilePart_inv (cfg : ExtractorCfg) (st st2 : ExtLoopState)
    (z : ZipEntry) (p : String) (acts acts2 : List FsAction)
    (hw : cfg.limits.max_total_bytes < 2 ^ 64)
    (hinv : ExtInvariant cfg.limits st)
    (hcount : st.report.files_extracted < cfg.limits.max_file_count)
    (h : writeFilePart cfg st z p acts = .ok st2 acts2) :
    ExtInvariant cfg.limits st2 := by
  obtain ⟨hb, hf, heq⟩ := hinv
  simp only [writeFilePart] at h
  split_ifs at h
  injection h with h1 h2
  subst h1
  have hwle : min z.actual
      (min (min cfg.limits.max_single_file z.size)
        (cfg.limits.max_total_bytes - st.total_bytes_written)) ≤
      cfg.limits.max_total_bytes - st.total_bytes_written :=
    le_trans (Nat.min_le_right _ _) (Nat.min_le_right _ _)
  refine ⟨?_, ?_, ?_⟩
  · show wrapAdd st.total_bytes_written _ ≤ cfg.limits.max_total_bytes
    unfold wrapAdd
    rw [Nat.mod_eq_of_lt (by omega)]
    omega
  · show st.report.files_extracted + 1 ≤ cfg.limits.max_file_count
    omega
  · show wrapAdd st.report.bytes_written _ = wrapAdd st.total_bytes_written _
    rw [heq]

theorem extractStep_inv (cfg : ExtractorCfg) (fs : FsOracle)
    (st st2 : ExtLoopState) (z : ZipEntry) (acts : List FsAction)
    (hw : cfg.limits.max_total_bytes < 2 ^ 64)
    (hinv : ExtInvariant cfg.limits st)
    (h : extractStep cfg fs st z = .ok st2 acts) :
    ExtInvariant cfg.limits st2 := by
  obtain ⟨hb, hf, heq⟩ := hinv
  simp only [extractStep] at h
  split at h
  · simp at h
  split at h
  · simp at h
  split at h
  · split at h
    · simp at h
    · injection h with h1 h2
      subst h1
      exact ⟨hb, hf, heq⟩
  · split at h
    · simp at h
    split at h
    · injection h with h1 h2
      subst h1
      exact ⟨hb, hf, heq⟩
    split at h
    · simp at h
    split at h
    · simp at h
    split at h
    · simp at h
    split at h
    · injection h with h1 h2
      subst h1
      exact ⟨hb, hf, heq⟩
    · split at h
      · split at h
        · simp at h
        · exact writeFilePart_inv cfg st st2 z _ _ _ hw ⟨hb, hf, heq⟩ (by omega) h
      · split at h
        · injection h with h1 h2
          subst h1
          exact ⟨hb, hf, heq⟩
        · exact writeFilePart_inv cfg st st2 z _ _ _ hw ⟨hb, hf, heq⟩ (by omega) h
      · exact writeFilePart_inv cfg st st2 z _ _ _ hw ⟨hb, hf, heq⟩ (by omega) h

theorem extractLoop_inv (cfg : ExtractorCfg) (fs : FsOracle)
    (archive : List ZipEntry) :
    ∀ (st st2 : ExtLoopState) (acts : List FsAction),
    cfg.limits.max_total_bytes < 2 ^ 64 →
    ExtInvariant cfg.limits st →
    extractLoop cfg fs archive st = (.ok st2, acts) →
    ExtInvariant cfg.limits st2 := by
  induction archive with
  | nil =>
    intro st st2 acts hw hinv h
    simp [extractLoop] at h
    obtain ⟨h1, -⟩ := h
    rwa [← h1]
  | cons z rest ih =>
    intro st st2 acts hw hinv h
    rw [extractLoop] at h
    cases hs : extractStep cfg fs st z with
    | fail err a =>
      rw [hs] at h
      simp at h
    | ok stm a =>
      rw [hs] at h
      dsimp only at h
      rcases hl : extractLoop cfg fs rest stm with ⟨r, acts2⟩
      rw [hl] at h
      simp at h
      obtain ⟨hr, -⟩ := h
      exact ih stm st2 acts2 hw
        (extractStep_inv cfg fs st stm z a hw hinv hs) (by rw [hl, hr])

theorem extractRun_inv (cfg : ExtractorCfg) (fs : FsOracle)
    (archive : List ZipEntry) (report : Report) (acts : List FsAction)
    (hw : cfg.limits.max_total_bytes < 2 ^ 64)
    (h : extractRun cfg fs archive = (.ok report, acts)) :
    report.bytes_written ≤ cfg.limits.max_total_bytes ∧
    report.files_extracted ≤ cfg.limits.max_file_count := by
  unfold extractRun at h
  rcases hl : extractLoop cfg fs archive ExtLoopState.init with ⟨r, a⟩
  rw [hl] at h
  cases r with
  | error e => simp at h
  | ok stf =>
    simp at h
    obtain ⟨hrep, -⟩ := h
    obtain ⟨hb2, hf2, heq2⟩ := extractLoop_inv cfg fs archive
      ExtLoopState.init stf a hw ⟨Nat.zero_le _, Nat.zero_le _, rfl⟩ hl
    rw [← hrep]
    exact ⟨by rw [heq2]; exact hb2, hf2⟩

theorem check_all_count_bound (cfg : DriverCfg) (info : EntryInfo)
    (st : ExtractionState) (u : Unit)
    (h : Driver.check_all cfg info st = .ok u) :
    st.files_extracted < cfg.limits.max_file_count := by
  simp only [Driver.check_all, bind, Except.bind] at h
  split at h
  · simp at h
  split at h
  · simp at h
  split at h
  · simp at h
  · rename_i u1 heq
    unfold CountPolicy.check at heq
    split_ifs at heq with hc
    omega

theorem driverWriteZip_inv (cfg : DriverCfg) (st st2 : ExtractionState)
    (e : DEntry) (p : String) (acts acts2 : List FsAction)
    (hw : cfg.limits.max_total_bytes < 2 ^ 64)
    (hinv : DrvInvariant cfg.limits st)
    (hcount : st.files_extracted < cfg.limits.max_file_count)
    (h : driverWriteZip cfg st e p acts = .ok st2 acts2) :
    DrvInvariant cfg.limits st2 := by
  obtain ⟨hb, hf⟩ := hinv
  simp only [driverWriteZip, ZipAdapter.extract_to] at h
  injection h with h1 h2
  subst h1
  have hwle : min e.actual (min cfg.limits.max_single_file
      (cfg.limits.max_total_bytes - st.bytes_written)) ≤
      cfg.limits.max_total_bytes - st.bytes_written :=
    le_trans (Nat.min_le_right _ _) (Nat.min_le_right _ _)
  refine ⟨?_, ?_⟩
  · show wrapAdd st.bytes_written _ ≤ cfg.limits.max_total_bytes
    unfold wrapAdd
    rw [Nat.mod_eq_of_lt (by omega)]
    omega
  · show st.files_extracted + 1 ≤ cfg.limits.max_file_count
    omega

theorem driver_zip_step_inv (cfg : DriverCfg) (fs : FsOracle)
    (st st2 : ExtractionState) (e : DEntry) (acts : List FsAction)
    (hw : cfg.limits.max_total_bytes < 2 ^ 64)
    (hinv : DrvInvariant cfg.limits st)
    (h : Driver.extract_zip_entry cfg fs st e = .ok st2 acts) :
    DrvInvariant cfg.limits st2 := by
  obtain ⟨hb, hf⟩ := hinv
  simp only [Driver.extract_zip_entry] at h
  split at h
  · injection h with h1 h2
    subst h1
    exact ⟨hb, hf⟩
  · split at h
    · simp at h
    · rename_i u heq
      have hcnt := check_all_count_bound cfg e.info st u heq
      split at h
      · injection h with h1 h2
        subst h1
        exact ⟨hb, hf⟩
      · split at h
        · injection h with h1 h2
          subst h1
          exact ⟨hb, hf⟩
        · split at h
          · split at h
            · simp at h
            · exact driverWriteZip_inv cfg st st2 e _ _ _ hw ⟨hb, hf⟩ hcnt h
          · split at h
            · injection h with h1 h2
              subst h1
              exact ⟨hb, hf⟩
            · exact driverWriteZip_inv cfg st st2 e _ _ _ hw ⟨hb, hf⟩ hcnt h
          · exact driverWriteZip_inv cfg st st2 e _ _ _ hw ⟨hb, hf⟩ hcnt h
        · injection h with h1 h2
          subst h1
          exact ⟨hb, hf⟩

/-- C2: at every policy-check point and in the final report,
`bytes_written ≤ max_total_bytes` and `files_extracted ≤ max_file_count`:
both the extractor's per-entry step and the driver's ZIP per-entry step
preserve the invariant (so it holds at each policy check, the states being
exactly the pre-states of the checks), and a successful
`Extractor::extract` returns a report within both limits. The u64
hypothesis `max_total_bytes < 2^64` is satisfied by every real
configuration. -/
theorem C2_counters_bounded :
    (∀ (cfg : ExtractorCfg) (fs : FsOracle) (st st2 : ExtLoopState)
       (z : ZipEntry) (acts : List FsAction),
      cfg.limits.max_total_bytes < 2 ^ 64 →
      ExtInvariant cfg.limits st →
      extractStep cfg fs st z = .ok st2 acts →
      ExtInvariant cfg.limits st2) ∧
    (∀ (cfg : ExtractorCfg) (fs : FsOracle) (archive : List ZipEntry)
       (report : Report) (acts : List FsAction),
      cfg.limits.max_total_bytes < 2 ^ 64 →
      Extractor.extract cfg fs archive = (.ok report, acts) →
      report.bytes_written ≤ cfg.limits.max_total_bytes ∧
      report.files_extracted ≤ cfg.limits.max_file_count) ∧
    (∀ (cfg : DriverCfg) (fs : FsOracle) (st st2 : ExtractionState)
       (e : DEntry) (acts : List FsAction),
      cfg.limits.max_total_bytes < 2 ^ 64 →
      DrvInvariant cfg.limits st →
      Driver.extract_zip_entry cfg fs st e = .ok st2 acts →
      DrvInvariant cfg.limits st2) := by
  refine ⟨?_, ?_, ?_⟩
  · intro cfg fs st st2 z acts hw hinv h
    exact extractStep_inv cfg fs st st2 z acts hw hinv h
  · intro cfg fs archive report acts hw h
    unfold Extractor.extract at h
    cases hm : cfg.mode with
    | validateFirst =>
      rw [hm] at h
      cases hv : validate_all cfg archive with
      | error e =>
        rw [hv] at h
        simp at h
      | ok u =>
        rw [hv] at h
        exact extractRun_inv cfg fs archive report acts hw h
    | streaming =>
      rw [hm] at h
      exact extractRun_inv cfg fs archive report acts hw h
  · intro cfg fs st st2 e acts hw hinv h
    exact driver_zip_step_inv cfg fs st st2 e acts hw hinv h

theorem writeFilePart_mem (cfg : ExtractorCfg) (st : ExtLoopState)
    (z : ZipEntry) (p : String) (acts : List FsAction) :
    ∀ a ∈ (writeFilePart cfg st z p acts).acts,
      a ∈ acts ∨ FsAction.path a = p := by
  intro a ha
  revert ha
  simp only [writeFilePart]
  split_ifs <;> intro ha
  · rcases List.mem_append.mp ha with h1 | h2
    · exact Or.inl h1
    · simp at h2
      subst h2
      exact Or.inr rfl
  · rcases List.mem_append.mp ha with h1 | h2
    · exact Or.inl h1
    · simp at h2
      subst h2
      exact Or.inr rfl
  · rcases List.mem_append.mp ha with h1 | h2
    · exact Or.inl h1
    · simp at h2
      subst h2
      exact Or.inr rfl
  · rcases List.mem_append.mp ha with h1 | h2
    · rcases List.mem_append.mp h1 with h3 | h4
      · exact Or.inl h3
      · simp at h4
        subst h4
        exact Or.inr rfl
    · right
      revert h2
      cases z.unix_mode <;> intro h2 <;> simp at h2
      subst h2
      rfl

theorem writeFilePart_acts_paths (cfg : ExtractorCfg) (st : ExtLoopState)
    (z : ZipEntry) (p q : String) (pre : List FsAction)
    (hpre : ∀ a ∈ pre, FsAction.path a = p ∨ FsAction.path a = q) :
    ∀ a ∈ (writeFilePart cfg st z p pre).acts,
      FsAction.path a = p ∨ FsAction.path a = q := by
  intro a ha
  rcases writeFilePart_mem cfg st z p pre a ha with h1 | h2
  · exact hpre a h1
  · exact Or.inl h2

theorem extractStep_acts (cfg : ExtractorCfg) (fs : FsOracle)
    (st : ExtLoopState) (z : ZipEntry) :
    ∀ a ∈ (extractStep cfg fs st z).acts,
      FsAction.path a = pathJoin cfg.root z.name ∨
      FsAction.path a = parentPath (pathJoin cfg.root z.name) := by
  simp only [extractStep]
  split
  · simp [StepOut.acts]
  split
  · simp [StepOut.acts]
  split
  · split
    · simp [StepOut.acts]
    · simp [StepOut.acts]
  · split
    · simp [StepOut.acts]
    split
    · simp [StepOut.acts]
    split
    · simp [StepOut.acts]
    split
    · simp [StepOut.acts]
    split
    · simp [StepOut.acts]
    split
    · simp [StepOut.acts, FsAction.path]
    · split
      · split
        · simp [StepOut.acts, FsAction.path]
        · refine writeFilePart_acts_paths cfg st z _ _ _ ?_
          intro a ha
          simp at ha
          rcases ha with rfl | rfl <;> simp [FsAction.path]
      · split
        · simp [StepOut.acts, FsAction.path]
        · refine writeFilePart_acts_paths cfg st z _ _ _ ?_
          intro a ha
          simp at ha
          rcases ha with rfl | rfl <;> simp [FsAction.path]
      · refine writeFilePart_acts_paths cfg st z _ _ _ ?_
        intro a ha
        rcases List.mem_append.mp ha with h1 | h2
        · rcases List.mem_append.mp h1 with h3 | h4
          · simp at h3
            subst h3
            simp [FsAction.path]
          · split at h4
            · simp at h4
              subst h4
              simp [FsAction.path]
            · simp at h4
        · simp at h2
          subst h2
          simp [FsAction.path]

theorem driverWriteZip_mem (cfg : DriverCfg) (st : ExtractionState)
    (e : DEntry) (p : String) (acts : List FsAction) :
    ∀ a ∈ (driverWriteZip cfg st e p acts).acts,
      a ∈ acts ∨ FsAction.path a = p := by
  intro a ha
  revert ha
  simp only [driverWriteZip]
  intro ha
  rcases List.mem_append.mp ha with h1 | h2
  · rcases List.mem_append.mp h1 with h3 | h4
    · exact Or.inl h3
    · simp at h4
      subst h4
      exact Or.inr rfl
  · right
    revert h2
    cases e.info.mode <;> intro h2 <;> simp at h2
    subst h2
    rfl

theorem driverWriteZip_acts_paths (cfg : DriverCfg) (st : ExtractionState)
    (e : DEntry) (p q : String) (pre : List FsAction)
    (hpre : ∀ a ∈ pre, FsAction.path a = p ∨ FsAction.path a = q) :
    ∀ a ∈ (driverWriteZip cfg st e p pre).acts,
      FsAction.path a = p ∨ FsAction.path a = q := by
  intro a ha
  rcases driverWriteZip_mem cfg st e p pre a ha with h1 | h2
  · exact hpre a h1
  · exact Or.inl h2

theorem driver_zip_step_acts (cfg : DriverCfg) (fs : FsOracle)
    (st : ExtractionState) (e : DEntry) :
    ∀ a ∈ (Driver.extract_zip_entry cfg fs st e).acts,
      FsAction.path a = pathJoin cfg.destination e.info.name ∨
      FsAction.path a = parentPath (pathJoin cfg.destination e.info.name) := by
  simp only [Driver.extract_zip_entry]
  split
  · simp [StepOut.acts]
  · split
    · simp [StepOut.acts]
    · split
      · simp [StepOut.acts]
      · split
        · simp [StepOut.acts, FsAction.path]
        · split
          · split
            · simp [StepOut.acts, FsAction.path]
            · refine driverWriteZip_acts_paths cfg st e _ _ _ ?_
              intro a ha
              simp at ha
              rcases ha with rfl | rfl <;> simp [FsAction.path]
          · split
            · simp [StepOut.acts, FsAction.path]
            · refine driverWriteZip_acts_paths cfg st e _ _ _ ?_
              intro a ha
              simp at ha
              rcases ha with rfl | rfl <;> simp [FsAction.path]
          · refine driverWriteZip_acts_paths cfg st e _ _ _ ?_
            intro a ha
            rcases List.mem_append.mp ha with h1 | h2
            · rcases List.mem_append.mp h1 with h3 | h4
              · simp at h3
                subst h3
                simp [FsAction.path]
              · split at h4
                · simp at h4
                  subst h4
                  simp [FsAction.path]
                · simp at h4
            · simp at h2
              subst h2
              simp [FsAction.path]
        · simp [StepOut.acts]

theorem extractStep_jail_discarded (cfg : ExtractorCfg) (fs : FsOracle)
    (st : ExtLoopState) (z : ZipEntry) (j1 j2 : JailFn)
    (hsh : ∀ n, jailShape (j1 n) = jailShape (j2 n)) :
    extractStep { cfg with jail := j1 } fs st z =
      extractStep { cfg with jail := j2 } fs st z := by
  have h := hsh z.name
  simp only [extractStep]
  cases h1 : j1 z.name with
  | error d1 =>
    cases h2 : j2 z.name with
    | error d2 =>
      rw [h1, h2] at h
      simp [jailShape] at h
      subst h
      rfl
    | ok v2 =>
      rw [h1, h2] at h
      simp [jailShape] at h
  | ok v1 =>
    cases h2 : j2 z.name with
    | error d2 =>
      rw [h1, h2] at h
      simp [jailShape] at h
    | ok v2 =>
      rfl

/-- C8: every filesystem action of a materialized entry targets the literal
join `root + name` (or, for the implicit parent mkdir, its parent) — in
both the extractor and driver ZIP pipelines — and the extractor step is
invariant under swapping the jail for one whose joins succeed and fail
identically but return different path values: the jail's returned path is
discarded and never used as the write path. -/
theorem C8_literal_join_paths :
    (∀ (cfg : ExtractorCfg) (fs : FsOracle) (st : ExtLoopState) (z : ZipEntry),
      ∀ a ∈ (extractStep cfg fs st z).acts,
        FsAction.path a = pathJoin cfg.root z.name ∨
        FsAction.path a = parentPath (pathJoin cfg.root z.name)) ∧
    (∀ (cfg : DriverCfg) (fs : FsOracle) (st : ExtractionState) (e : DEntry),
      ∀ a ∈ (Driver.extract_zip_entry cfg fs st e).acts,
        FsAction.path a = pathJoin cfg.destination e.info.name ∨
        FsAction.path a = parentPath (pathJoin cfg.destination e.info.name)) ∧
    (∀ (cfg : ExtractorCfg) (fs : FsOracle) (st : ExtLoopState) (z : ZipEntry)
       (j1 j2 : JailFn),
      (∀ n, jailShape (j1 n) = jailShape (j2 n)) →
      extractStep { cfg with jail := j1 } fs st z =
        extractStep { cfg with jail := j2 } fs st z) :=
  ⟨extractStep_acts, driver_zip_step_acts, extractStep_jail_discarded⟩

/-- Witness for C8: the file-create action of a concrete entry targets
exactly `root + name`, and swapping in a jail returning a different path
value changes nothing. -/
theorem C8_witness :
    (FsAction.path (FsAction.createNewFile "/dst/a.txt") =
        pathJoin extCfgDemo.root zGood.name ∨
      FsAction.path (FsAction.createNewFile "/dst/a.txt") =
        parentPath (pathJoin extCfgDemo.root zGood.name)) ∧
    extractStep { extCfgDemo with jail := jailDemo } fsDemo
        ExtLoopState.init zGood =
      extractStep { extCfgDemo with jail := jailDemo2 } fsDemo
        ExtLoopState.init zGood :=
  ⟨C8_literal_join_paths.1 extCfgDemo fsDemo ExtLoopState.init zGood
      (FsAction.createNewFile "/dst/a.txt") (by decide),
    C8_literal_join_paths.2.2 extCfgDemo fsDemo ExtLoopState.init zGood
      jailDemo jailDemo2
      (by
        intro n
        simp only [jailDemo, jailDemo2, jailShape]
        split_ifs <;> rfl)⟩

/-- Witness for C2: one concrete extracted file leaves the counters at
5 ≤ 1000 bytes and 1 ≤ 10 files. -/
theorem C2_witness :
    ExtInvariant extCfgDemo.limits ⟨⟨1, 0, 5, 0⟩, 5⟩ :=
  C2_counters_bounded.1 extCfgDemo fsDemo ExtLoopState.init ⟨⟨1, 0, 5, 0⟩, 5⟩
    zGood
    [FsAction.createDirAll "/dst", FsAction.createNewFile "/dst/a.txt",
     FsAction.writeBytes "/dst/a.txt" 5,
     FsAction.setPermissions "/dst/a.txt" 420]
    (by decide) ⟨Nat.zero_le _, Nat.zero_le _, rfl⟩ rfl

end SafeUnzip
